import Mathlib

/-!
Verification of the cplot color-mapping core (src/cplot/main.py).

The embedding models the numeric pipeline of `get_srgb1` over the real
numbers: magnitude scaling, the per-color-space bicone construction, the
post-processing (post-multiplier and gamut clipping), the selector
dispatch and its error behaviour, and the phase-contour masking logic of
`plot`.  Arrays are modelled as lists of lists (row-major 2D), complex
samples as Mathlib's ℂ, `np.arctan2(z.imag, z.real)` as `Complex.arg`,
and `np.abs(z)` as `Complex.abs`.  The conversions performed by the
external `colorio` library (`to_xyz100` / `from_xyz100` / `to_rgb1`
chains) are abstracted as an arbitrary function per perceptual space;
the HSL→RGB conversion, which the HSL branch's output range depends on,
is modelled explicitly from the standard formula.
-/

noncomputable section

open Real Filter

namespace Cplot

/-- The magnitude scaling `abs_scaling(r) = r ** alpha / (r ** alpha + 1)`
from `get_srgb1` (main.py lines 42-44); `alpha` is the closed-over
parameter of `get_srgb1`. -/
def abs_scaling (alpha r : ℝ) : ℝ := r ^ alpha / (r ^ alpha + 1)

/-- `np.mod x y` for real arguments (floored modulo, as used for the HSL
hue computation). -/
def realMod (x y : ℝ) : ℝ := x - y * (⌊x / y⌋ : ℝ)

/-- Gamut clipping as performed on `srgb_vals`: first `srgb_vals[srgb_vals > 1] = 1.0`,
then `srgb_vals[srgb_vals < 0] = 0.0`. -/
def clip (x : ℝ) : ℝ := max 0 (min x 1)

/-- `clip` applied to each channel of a color triple. -/
def clip3 (v : ℝ × ℝ × ℝ) : ℝ × ℝ × ℝ := (clip v.1, clip v.2.1, clip v.2.2)

/-- The lower-only clipping used in the HSL branch:
`srgb_vals[srgb_vals < 0] = 0` (no upper cut). -/
def clipNeg (x : ℝ) : ℝ := max x 0

/-- `clipNeg` applied to each channel of a color triple. -/
def clipNeg3 (v : ℝ × ℝ × ℝ) : ℝ × ℝ × ℝ := (clipNeg v.1, clipNeg v.2.1, clipNeg v.2.2)

/-- Channel-wise scalar multiplication, as in `srgb_vals *= 1.1`. -/
def scale3 (c : ℝ) (v : ℝ × ℝ × ℝ) : ℝ × ℝ × ℝ := (c * v.1, c * v.2.1, c * v.2.2)

/-- The CAM16 bicone point (main.py lines 77-91): `r0 = 25.0`,
`offset = 0.916708 * pi`, `rd = r0 - r0 * 2 * |s - 0.5|`, point
`(100 * s, rd * cos (angle + offset), rd * sin (angle + offset))`. -/
def cam16Pt (s angle : ℝ) : ℝ × ℝ × ℝ :=
  let r0 : ℝ := 25.0
  let offset : ℝ := 0.916708 * π
  let rd : ℝ := r0 - r0 * 2 * |s - 0.5|
  (100 * s, rd * Real.cos (angle + offset), rd * Real.sin (angle + offset))

/-- The CIELAB bicone point (main.py lines 106-120): `r0 = 45.0`,
`offset = 0.8936868 * pi`. -/
def cielabPt (s angle : ℝ) : ℝ × ℝ × ℝ :=
  let r0 : ℝ := 45.0
  let offset : ℝ := 0.8936868 * π
  let rd : ℝ := r0 - r0 * 2 * |s - 0.5|
  (100 * s, rd * Real.cos (angle + offset), rd * Real.sin (angle + offset))

/-- The OKLAB bicone point (main.py lines 136-154): `max_lightness = 4.64158795`,
`r0 = 0.50`, `offset = 0.8936868 * pi`. -/
def oklabPt (s angle : ℝ) : ℝ × ℝ × ℝ :=
  let max_lightness : ℝ := 4.64158795
  let r0 : ℝ := 0.50
  let offset : ℝ := 0.8936868 * π
  let rd : ℝ := r0 - r0 * 2 * |s - 0.5|
  (max_lightness * s, rd * Real.cos (angle + offset), rd * Real.sin (angle + offset))

/-- The HSL triple built by the HSL branch (main.py lines 168-174):
`(mod (angle / (2 pi) * 360 + 120) 360, 1, absval_scaled)`. -/
def hslVals (alpha : ℝ) (z : ℂ) : ℝ × ℝ × ℝ :=
  (realMod (Complex.arg z / (2 * π) * 360 + 120) 360, 1, abs_scaling alpha (Complex.abs z))

/-- Chroma of the standard HSL→RGB conversion: `(1 - |2 l - 1|) * s`. -/
def hslChroma (s l : ℝ) : ℝ := (1 - |2 * l - 1|) * s

/-- Intermediate value of the standard HSL→RGB conversion:
`x = chroma * (1 - |mod (h / 60) 2 - 1|)` for `h` already reduced mod 360. -/
def hslX (h s l : ℝ) : ℝ := hslChroma s l * (1 - |realMod (h / 60) 2 - 1|)

/-- Additive lightness match of the standard HSL→RGB conversion:
`m = l - chroma / 2`. -/
def hslM (s l : ℝ) : ℝ := l - hslChroma s l / 2

/-- Sextant selection of the standard HSL→RGB conversion, for a hue
`h` in `[0, 360)`. -/
def hslSextant (h c x : ℝ) : ℝ × ℝ × ℝ :=
  if h < 60 then (c, x, 0)
  else if h < 120 then (x, c, 0)
  else if h < 180 then (0, c, x)
  else if h < 240 then (0, x, c)
  else if h < 300 then (x, 0, c)
  else (c, 0, x)

/-- Modelled from the spec: the display-color conversion
`colorio.cs.HSL().to_rgb1` called by the HSL branch lives in the external
`colorio` package, not in this repository; this is the standard HSL→RGB
formula it implements (hue reduced mod 360, chroma/sextant construction,
lightness match added to each channel). -/
def hslToRgb1 (hsl : ℝ × ℝ × ℝ) : ℝ × ℝ × ℝ :=
  let h := realMod hsl.1 360
  let c := hslChroma hsl.2.1 hsl.2.2
  let x := hslX h hsl.2.1 hsl.2.2
  let m := hslM hsl.2.1 hsl.2.2
  let rgb1 := hslSextant h c x
  (rgb1.1 + m, rgb1.2.1 + m, rgb1.2.2 + m)

/-- The four color-space branches of `get_srgb1`. -/
inductive Branch
  | cam16
  | lab
  | oklab
  | hsl

/-- The external `colorio` conversion chains
`srgb.to_rgb1 (srgb.from_xyz100 (cs.to_xyz100 pts))` for the three
perceptual spaces, abstracted as one function per space. -/
structure Conversions where
  cam16 : ℝ × ℝ × ℝ → ℝ × ℝ × ℝ
  lab : ℝ × ℝ × ℝ → ℝ × ℝ × ℝ
  oklab : ℝ × ℝ × ℝ → ℝ × ℝ × ℝ

/-- The color-space point each branch of `get_srgb1` builds from one
sample, with `angle = np.arctan2(z.imag, z.real)` (main.py line 54) and
`absval_scaled = abs_scaling(np.abs(z))` (line 55). -/
def colorSpacePoint (b : Branch) (alpha : ℝ) (z : ℂ) : ℝ × ℝ × ℝ :=
  match b with
  | .cam16 => cam16Pt (abs_scaling alpha (Complex.abs z)) (Complex.arg z)
  | .lab => cielabPt (abs_scaling alpha (Complex.abs z)) (Complex.arg z)
  | .oklab => oklabPt (abs_scaling alpha (Complex.abs z)) (Complex.arg z)
  | .hsl => hslVals alpha z

/-- Per-sample result of `get_srgb1`: the branch's color-space point,
through the (abstracted) conversion, then the branch's post-processing.
Only the CAM16 branch multiplies by 1.1 (`srgb_vals *= 1.1`, main.py
line 94) before the two-sided clipping; CIELAB and OKLAB clip the
converted values directly; the HSL branch only irons out negative
round-offs (line 177). -/
def srgbPixel (C : Conversions) (b : Branch) (alpha : ℝ) (z : ℂ) : ℝ × ℝ × ℝ :=
  match b with
  | .cam16 => clip3 (scale3 1.1 (C.cam16 (colorSpacePoint .cam16 alpha z)))
  | .lab => clip3 (C.lab (colorSpacePoint .lab alpha z))
  | .oklab => clip3 (C.oklab (colorSpacePoint .oklab alpha z))
  | .hsl => clipNeg3 (hslToRgb1 (colorSpacePoint .hsl alpha z))

/-- The error taxonomy of the spec: `assert alpha >= 0` (main.py
line 10) and the final `assert colorspace.upper() == "HSL"` of the
selector chain (lines 161-164). -/
inductive ColorError
  | invalidParameter
  | unsupportedColorSpace
deriving DecidableEq

/-- Python's `str.upper()` applied to the selector string (ASCII case
mapping, character by character). -/
def strUpper (s : String) : String := String.mk (s.data.map Char.toUpper)

/-- The selector dispatch of `get_srgb1` (main.py lines 69, 99, 127,
161-164): `colorspace.upper()` compared against the four recognized
names in order. -/
def branchOf (colorspace : String) : Option Branch :=
  if strUpper colorspace = "CAM16" then some .cam16
  else if strUpper colorspace = "CIELAB" then some .lab
  else if strUpper colorspace = "OKLAB" then some .oklab
  else if strUpper colorspace = "HSL" then some .hsl
  else none

/-- `get_srgb1(z, alpha, colorspace)` over a 2D array of samples.
The `assert alpha >= 0` runs first; then the branch dispatch; the
per-sample pipeline maps over the array and `np.moveaxis(srgb_vals, 0, -1)`
is modelled by the per-element triple (the trailing 3-channel axis). -/
def get_srgb1 (C : Conversions) (z : List (List ℂ)) (alpha : ℝ) (colorspace : String) :
    Except ColorError (List (List (ℝ × ℝ × ℝ))) :=
  if alpha < 0 then .error .invalidParameter
  else
    match branchOf colorspace with
    | none => .error .unsupportedColorSpace
    | some b => .ok (z.map fun row => row.map (srgbPixel C b alpha))

/-- The per-point phase-contour masking of `plot` (main.py lines 240-246):
`z = x + 1j * y`, `angle = np.angle(f(z))`, and the point is replaced by
NaN (here: `none`) when
`|angle - pi| < |angle - level|` or `|angle + pi| < |angle - level|`. -/
def maskPoint (f : ℂ → ℂ) (level : ℝ) (p : ℝ × ℝ) : Option (ℝ × ℝ) :=
  let angle := Complex.arg (f (p.1 + p.2 * Complex.I))
  if |angle - π| < |angle - level| ∨ |angle + π| < |angle - level| then none
  else some p

/-- The masking applied to every point of one extracted polyline segment
(main.py lines 239-246). -/
def maskSegment (f : ℂ → ℂ) (level : ℝ) (segment : List (ℝ × ℝ)) :
    List (Option (ℝ × ℝ)) :=
  segment.map (maskPoint f level)

/-- The parameters of `plot` (main.py lines 182-191); the signature
offers no contour-level parameter. -/
structure PlotArgs where
  f : ℂ → ℂ
  xminmax : ℝ × ℝ
  yminmax : ℝ × ℝ
  n : ℕ × ℕ
  alpha : ℝ
  colorspace : String
  contour_abs : Bool
  contour_arg : Bool

/-- The magnitude-contour levels `plot` passes to the contour extractor
(main.py lines 220-228): `levels=[0.1, 100.0]` exactly when
`contour_abs` is set. -/
def plotAbsLevels (args : PlotArgs) : Option (List ℝ) :=
  if args.contour_abs then some [0.1, 100.0] else none

/-- The phase-contour levels `plot` passes to the contour extractor
(main.py lines 229-237): `levels = [-0.5 * pi, 0.0, 0.5 * pi]` exactly
when `contour_arg` is set. -/
def plotArgLevels (args : PlotArgs) : Option (List ℝ) :=
  if args.contour_arg then some [-0.5 * π, 0.0, 0.5 * π] else none

/-- A constant conversion assignment used to instantiate the abstracted
`colorio` chains at concrete inputs. -/
def constConv : Conversions :=
  { cam16 := fun _ => (0.5, 0.5, 0.5)
    lab := fun _ => (0.5, 0.5, 0.5)
    oklab := fun _ => (0.5, 0.5, 0.5) }

/-! Helper lemmas. -/

lemma clip_mem (x : ℝ) : 0 ≤ clip x ∧ clip x ≤ 1 :=
  ⟨le_max_left 0 _, max_le (by norm_num) (min_le_right x 1)⟩

lemma clipNeg_mem (x : ℝ) (hx : x ≤ 1) : 0 ≤ clipNeg x ∧ clipNeg x ≤ 1 :=
  ⟨le_max_right x 0, max_le hx (by norm_num)⟩

lemma abs_scaling_mem (alpha r : ℝ) (hr : 0 ≤ r) :
    0 ≤ abs_scaling alpha r ∧ abs_scaling alpha r ≤ 1 := by
  have hnum : 0 ≤ r ^ alpha := Real.rpow_nonneg hr alpha
  constructor
  · exact div_nonneg hnum (by linarith)
  · rw [abs_scaling, div_le_one (by linarith)]
    linarith

lemma realMod_nonneg (x : ℝ) {y : ℝ} (hy : 0 < y) : 0 ≤ realMod x y := by
  unfold realMod
  have hx : ((⌊x / y⌋ : ℤ) : ℝ) ≤ x / y := Int.floor_le _
  have h2 : y * ((⌊x / y⌋ : ℤ) : ℝ) ≤ y * (x / y) := mul_le_mul_of_nonneg_left hx hy.le
  have h3 : y * (x / y) = x := by field_simp
  linarith

lemma realMod_lt (x : ℝ) {y : ℝ} (hy : 0 < y) : realMod x y < y := by
  unfold realMod
  have hx : x / y < ((⌊x / y⌋ : ℤ) : ℝ) + 1 := Int.lt_floor_add_one _
  have h2 : y * (x / y) < y * (((⌊x / y⌋ : ℤ) : ℝ) + 1) := mul_lt_mul_of_pos_left hx hy
  have h3 : y * (x / y) = x := by field_simp
  have h4 : y * (((⌊x / y⌋ : ℤ) : ℝ) + 1) = y * ((⌊x / y⌋ : ℤ) : ℝ) + y := by ring
  linarith

lemma branchOf_isSome_iff (cs : String) :
    (branchOf cs).isSome ↔ strUpper cs ∈ ["CAM16", "CIELAB", "OKLAB", "HSL"] := by
  unfold branchOf
  split_ifs with h1 h2 h3 h4 <;> simp [*]

/-! Claims. -/

/-- Claim C1: for each of the three perceptual color spaces, the mapper
computes, element-wise, lightness = lightnessScale * scaledMagnitude,
chroma radius rd = r0 - r0*2*|scaledMagnitude - 0.5|,
axis1 = rd*cos(angle + offset), axis2 = rd*sin(angle + offset), with the
constants (100, 25.0, 0.916708*pi) for CAM16, (100, 45.0, 0.8936868*pi)
for CIELAB and (4.64158795, 0.50, 0.8936868*pi) for OKLAB, where the
angle is atan2 of the input sample. -/
theorem colorSpacePoint_bicone (alpha : ℝ) (z : ℂ) :
    colorSpacePoint .cam16 alpha z =
      (100 * abs_scaling alpha (Complex.abs z),
       (25.0 - 25.0 * 2 * |abs_scaling alpha (Complex.abs z) - 0.5|) *
         Real.cos (Complex.arg z + 0.916708 * π),
       (25.0 - 25.0 * 2 * |abs_scaling alpha (Complex.abs z) - 0.5|) *
         Real.sin (Complex.arg z + 0.916708 * π)) ∧
    colorSpacePoint .lab alpha z =
      (100 * abs_scaling alpha (Complex.abs z),
       (45.0 - 45.0 * 2 * |abs_scaling alpha (Complex.abs z) - 0.5|) *
         Real.cos (Complex.arg z + 0.8936868 * π),
       (45.0 - 45.0 * 2 * |abs_scaling alpha (Complex.abs z) - 0.5|) *
         Real.sin (Complex.arg z + 0.8936868 * π)) ∧
    colorSpacePoint .oklab alpha z =
      (4.64158795 * abs_scaling alpha (Complex.abs z),
       (0.50 - 0.50 * 2 * |abs_scaling alpha (Complex.abs z) - 0.5|) *
         Real.cos (Complex.arg z + 0.8936868 * π),
       (0.50 - 0.50 * 2 * |abs_scaling alpha (Complex.abs z) - 0.5|) *
         Real.sin (Complex.arg z + 0.8936868 * π)) :=
  ⟨rfl, rfl, rfl⟩

/-- Claim C3: inversion symmetry of the magnitude scaler: for r > 0 and
alpha > 0, scale(1/r) = 1 - scale(r). -/
theorem abs_scaling_inversion (r alpha : ℝ) (hr : 0 < r) (ha : 0 < alpha) :
    abs_scaling alpha (1 / r) = 1 - abs_scaling alpha r := by
  have hrp : 0 < r ^ alpha := Real.rpow_pos_of_pos hr alpha
  unfold abs_scaling
  rw [one_div, Real.inv_rpow hr.le]
  have h1 : r ^ alpha ≠ 0 := hrp.ne'
  have h2 : r ^ alpha + 1 ≠ 0 := by positivity
  field_simp
  ring

/-- Witness for C3 at r = 2, alpha = 1. -/
theorem abs_scaling_inversion_witness :
    (0 : ℝ) < 2 ∧ (0 : ℝ) < 1 ∧ abs_scaling 1 (1 / 2) = 1 - abs_scaling 1 2 :=
  ⟨by norm_num, by norm_num, abs_scaling_inversion 2 1 (by norm_num) (by norm_num)⟩

/-- Claim C5 counterexample: the CIELAB branch does not apply the 1.1
post-multiplier before clipping; with the conversion abstracted as the
constant (0.5, 0.5, 0.5), the branch returns (0.5, 0.5, 0.5) while a
1.1-post-multiplied pipeline would return (0.55, 0.55, 0.55). -/
theorem cielab_no_post_multiplier :
    srgbPixel constConv .lab 1 1 = (0.5, 0.5, 0.5) ∧
    clip3 (scale3 1.1 (constConv.lab (colorSpacePoint .lab 1 1))) =
      (0.55, 0.55, 0.55) ∧
    ((0.5 : ℝ), (0.5 : ℝ), (0.5 : ℝ)) ≠ ((0.55 : ℝ), (0.55 : ℝ), (0.55 : ℝ)) := by
  refine ⟨?_, ?_, ?_⟩
  · show clip3 (0.5, 0.5, 0.5) = (0.5, 0.5, 0.5)
    norm_num [clip3, clip, min_def, max_def]
  · show clip3 (scale3 1.1 (0.5, 0.5, 0.5)) = (0.55, 0.55, 0.55)
    norm_num [clip3, clip, scale3, min_def, max_def]
  · intro h
    have := congrArg Prod.fst h
    norm_num at this

/-- Claim C5 (amended): only the CAM16 branch applies the fixed 1.1
post-multiplier to the decoded display-color values before clipping;
the CIELAB and OKLAB branches clip the decoded values directly, and the
HSL branch is not post-multiplied (it only clips negatives). -/
theorem post_multiplier_cam16_only (C : Conversions) (alpha : ℝ) (z : ℂ) :
    srgbPixel C .cam16 alpha z =
      clip3 (scale3 1.1 (C.cam16 (colorSpacePoint .cam16 alpha z))) ∧
    srgbPixel C .lab alpha z = clip3 (C.lab (colorSpacePoint .lab alpha z)) ∧
    srgbPixel C .oklab alpha z = clip3 (C.oklab (colorSpacePoint .oklab alpha z)) ∧
    srgbPixel C .hsl alpha z = clipNeg3 (hslToRgb1 (colorSpacePoint .hsl alpha z)) :=
  ⟨rfl, rfl, rfl, rfl⟩

/-- Claim C6: the HSL branch computes
hue = mod(angle/(2*pi)*360 + 120, 360), saturation = 1 and
lightness = scaledMagnitude; angle 0 (z = 1) gives hue 120 and angle pi
(z = -1) gives hue 300. -/
theorem hsl_branch_hue (alpha : ℝ) (z : ℂ) :
    colorSpacePoint .hsl alpha z =
      (realMod (Complex.arg z / (2 * π) * 360 + 120) 360, 1,
        abs_scaling alpha (Complex.abs z)) ∧
    (colorSpacePoint .hsl alpha 1).1 = 120 ∧
    (colorSpacePoint .hsl alpha (-1)).1 = 300 := by
  refine ⟨rfl, ?_, ?_⟩
  · show realMod (Complex.arg 1 / (2 * π) * 360 + 120) 360 = 120
    rw [Complex.arg_one]
    have h1 : (0 : ℝ) / (2 * π) * 360 + 120 = 120 := by
      rw [zero_div]
      ring
    rw [h1]
    unfold realMod
    have hf : ⌊(120 : ℝ) / 360⌋ = 0 := by
      rw [Int.floor_eq_zero_iff]
      constructor <;> norm_num
    rw [hf]
    norm_num
  · show realMod (Complex.arg (-1) / (2 * π) * 360 + 120) 360 = 300
    rw [Complex.arg_neg_one]
    have hπ : (π : ℝ) ≠ 0 := Real.pi_ne_zero
    have h1 : π / (2 * π) * 360 + 120 = 300 := by
      field_simp
      ring
    rw [h1]
    unfold realMod
    have hf : ⌊(300 : ℝ) / 360⌋ = 0 := by
      rw [Int.floor_eq_zero_iff]
      constructor <;> norm_num
    rw [hf]
    norm_num

/-- Claim C9: get_srgb1 fails with InvalidParameter exactly when alpha is
negative, and its error behaviour does not depend on the sample values,
which only flow into the (always produced) output. -/
theorem get_srgb1_errors_param_only (C : Conversions) (z : List (List ℂ))
    (alpha : ℝ) (cs : String) :
    (get_srgb1 C z alpha cs = .error .invalidParameter ↔ alpha < 0) ∧
    ∀ (w : List (List ℂ)) (e : ColorError),
      (get_srgb1 C z alpha cs = .error e ↔ get_srgb1 C w alpha cs = .error e) := by
  unfold get_srgb1
  by_cases h : alpha < 0
  · simp [h]
  · constructor
    · simp only [if_neg h]
      cases hb : branchOf cs <;> simp [h]
    · intro w e
      simp only [if_neg h]
      cases hb : branchOf cs <;> simp

/-- Claim C10: the contour levels used by plot are fixed constants not
chosen by the caller: with contour_abs set the magnitude levels are
exactly [0.1, 100.0], with contour_arg set the phase levels are exactly
[-pi/2, 0, pi/2]; PlotArgs mirrors the plot signature, which has no
level parameter. -/
theorem plot_contour_levels_fixed (args : PlotArgs) :
    (args.contour_abs = true → plotAbsLevels args = some [0.1, 100.0]) ∧
    (args.contour_arg = true → plotArgLevels args = some [-0.5 * π, 0.0, 0.5 * π]) := by
  constructor <;> intro h <;> simp [plotAbsLevels, plotArgLevels, h]

/-- Witness for C10 at a concrete invocation with both contour flags set. -/
theorem plot_contour_levels_fixed_witness :
    (PlotArgs.mk (fun w => w) (0, 1) (0, 1) (4, 4) 1 "cam16" true true).contour_abs = true ∧
    (PlotArgs.mk (fun w => w) (0, 1) (0, 1) (4, 4) 1 "cam16" true true).contour_arg = true ∧
    plotAbsLevels (PlotArgs.mk (fun w => w) (0, 1) (0, 1) (4, 4) 1 "cam16" true true) =
      some [0.1, 100.0] ∧
    plotArgLevels (PlotArgs.mk (fun w => w) (0, 1) (0, 1) (4, 4) 1 "cam16" true true) =
      some [-0.5 * π, 0.0, 0.5 * π] := by
  have h := plot_contour_levels_fixed
    (PlotArgs.mk (fun w => w) (0, 1) (0, 1) (4, 4) 1 "cam16" true true)
  exact ⟨rfl, rfl, h.1 rfl, h.2 rfl⟩

/-- Claim C4: a point of an extracted phase-contour segment is replaced
by an undefined marker if and only if the angle recomputed from f at
that point satisfies |angle - pi| < |angle - level| or
|angle + pi| < |angle - level|; all other points are left unchanged, and
the masking maps over every point of every segment. -/
theorem maskPoint_spec (f : ℂ → ℂ) (level : ℝ) (segment : List (ℝ × ℝ))
    (p : ℝ × ℝ) (hp : p ∈ segment) :
    maskSegment f level segment = segment.map (maskPoint f level) ∧
    (maskPoint f level p = none ↔
      |Complex.arg (f (p.1 + p.2 * Complex.I)) - π| <
        |Complex.arg (f (p.1 + p.2 * Complex.I)) - level| ∨
      |Complex.arg (f (p.1 + p.2 * Complex.I)) + π| <
        |Complex.arg (f (p.1 + p.2 * Complex.I)) - level|) ∧
    (¬(|Complex.arg (f (p.1 + p.2 * Complex.I)) - π| <
        |Complex.arg (f (p.1 + p.2 * Complex.I)) - level| ∨
       |Complex.arg (f (p.1 + p.2 * Complex.I)) + π| <
        |Complex.arg (f (p.1 + p.2 * Complex.I)) - level|) →
      maskPoint f level p = some p) := by
  refine ⟨rfl, ?_, ?_⟩
  · unfold maskPoint
    by_cases h : |Complex.arg (f (p.1 + p.2 * Complex.I)) - π| <
        |Complex.arg (f (p.1 + p.2 * Complex.I)) - level| ∨
      |Complex.arg (f (p.1 + p.2 * Complex.I)) + π| <
        |Complex.arg (f (p.1 + p.2 * Complex.I)) - level|
    · simp [h]
    · simp [h]
  · intro h
    unfold maskPoint
    simp [h]

/-- Witness for C4: the point (1, 0) on a segment for level 0 of the
identity function is kept (arg 1 = 0 is not nearer the branch cut). -/
theorem maskPoint_spec_witness :
    ((1 : ℝ), (0 : ℝ)) ∈ [((1 : ℝ), (0 : ℝ))] ∧
    (maskSegment (fun w => w) 0 [((1 : ℝ), (0 : ℝ))] =
      [((1 : ℝ), (0 : ℝ))].map (maskPoint (fun w => w) 0) ∧
    (maskPoint (fun w => w) 0 ((1 : ℝ), (0 : ℝ)) = none ↔
      |Complex.arg ((1 : ℝ) + (0 : ℝ) * Complex.I) - π| <
        |Complex.arg ((1 : ℝ) + (0 : ℝ) * Complex.I) - 0| ∨
      |Complex.arg ((1 : ℝ) + (0 : ℝ) * Complex.I) + π| <
        |Complex.arg ((1 : ℝ) + (0 : ℝ) * Complex.I) - 0|) ∧
    (¬(|Complex.arg ((1 : ℝ) + (0 : ℝ) * Complex.I) - π| <
        |Complex.arg ((1 : ℝ) + (0 : ℝ) * Complex.I) - 0| ∨
       |Complex.arg ((1 : ℝ) + (0 : ℝ) * Complex.I) + π| <
        |Complex.arg ((1 : ℝ) + (0 : ℝ) * Complex.I) - 0|) →
      maskPoint (fun w => w) 0 ((1 : ℝ), (0 : ℝ)) = some ((1 : ℝ), (0 : ℝ)))) :=
  ⟨by simp, maskPoint_spec (fun w => w) 0 [((1 : ℝ), (0 : ℝ))] ((1 : ℝ), (0 : ℝ)) (by simp)⟩

/-- Claim C7: the magnitude scaler computes r^alpha / (r^alpha + 1); its
output lies in [0, 1] for nonnegative r; scale(0) = 0; scale tends to 1
as r tends to infinity; and with alpha = 1 a magnitude of exactly 1
scales to exactly 0.5. -/
theorem abs_scaling_props (r alpha : ℝ) (hr : 0 ≤ r) (ha : 0 < alpha) :
    abs_scaling alpha r = r ^ alpha / (r ^ alpha + 1) ∧
    0 ≤ abs_scaling alpha r ∧ abs_scaling alpha r ≤ 1 ∧
    abs_scaling alpha 0 = 0 ∧
    Tendsto (abs_scaling alpha) atTop (nhds 1) ∧
    abs_scaling 1 1 = 0.5 := by
  obtain ⟨hm0, hm1⟩ := abs_scaling_mem alpha r hr
  refine ⟨rfl, hm0, hm1, ?_, ?_, ?_⟩
  · unfold abs_scaling
    rw [Real.zero_rpow ha.ne']
    norm_num
  · have hpow : Tendsto (fun x : ℝ => x ^ alpha) atTop atTop :=
      tendsto_rpow_atTop ha
    have hinv : Tendsto (fun x : ℝ => (x + 1)⁻¹) atTop (nhds 0) :=
      tendsto_inv_atTop_zero.comp (tendsto_atTop_add_const_right atTop (1 : ℝ) tendsto_id)
    have hone : Tendsto (fun x : ℝ => 1 - (x + 1)⁻¹) atTop (nhds 1) := by
      have h :=
        (tendsto_const_nhds : Tendsto (fun _ : ℝ => (1 : ℝ)) atTop (nhds 1)).sub hinv
      simpa using h
    have heq : (fun x : ℝ => 1 - (x + 1)⁻¹) =ᶠ[atTop] fun x : ℝ => x / (x + 1) := by
      filter_upwards [eventually_gt_atTop (0 : ℝ)] with x hx
      have hx1 : x + 1 ≠ 0 := by linarith
      field_simp
    have hdiv : Tendsto (fun x : ℝ => x / (x + 1)) atTop (nhds 1) := hone.congr' heq
    exact hdiv.comp hpow
  · unfold abs_scaling
    rw [Real.one_rpow]
    norm_num

/-- Witness for C7 at r = 1, alpha = 1. -/
theorem abs_scaling_props_witness :
    (0 : ℝ) ≤ 1 ∧ (0 : ℝ) < 1 ∧
    (abs_scaling 1 1 = (1 : ℝ) ^ (1 : ℝ) / ((1 : ℝ) ^ (1 : ℝ) + 1) ∧
     0 ≤ abs_scaling 1 1 ∧ abs_scaling 1 1 ≤ 1 ∧
     abs_scaling 1 0 = 0 ∧
     Tendsto (abs_scaling 1) atTop (nhds 1) ∧
     abs_scaling 1 1 = 0.5) :=
  ⟨by norm_num, by norm_num, abs_scaling_props 1 1 (by norm_num) (by norm_num)⟩

/-- Claim C8: get_srgb1 accepts a selector string iff its uppercasing is
one of the four recognized names (so any case variant selects that
branch), and any other selector fails with UnsupportedColorSpace. -/
theorem selector_case_insensitive (C : Conversions) (z : List (List ℂ))
    (alpha : ℝ) (cs : String) (ha : 0 ≤ alpha) :
    ((∃ out, get_srgb1 C z alpha cs = .ok out) ↔
      strUpper cs ∈ ["CAM16", "CIELAB", "OKLAB", "HSL"]) ∧
    (strUpper cs ∉ ["CAM16", "CIELAB", "OKLAB", "HSL"] →
      get_srgb1 C z alpha cs = .error .unsupportedColorSpace) := by
  have hna : ¬alpha < 0 := not_lt.mpr ha
  rw [← branchOf_isSome_iff]
  cases hb : branchOf cs
  · constructor
    · simp [get_srgb1, hna, hb]
    · intro _
      simp [get_srgb1, hna, hb]
  · constructor
    · simp [get_srgb1, hna, hb]
    · intro hmem
      exact absurd (by simp [hb]) hmem

/-- Witness for C8 at the unrecognized selector "Foo". -/
theorem selector_case_insensitive_witness :
    (0 : ℝ) ≤ 1 ∧
    (((∃ out, get_srgb1 constConv [[1]] 1 "Foo" = .ok out) ↔
      strUpper "Foo" ∈ ["CAM16", "CIELAB", "OKLAB", "HSL"]) ∧
    (strUpper "Foo" ∉ ["CAM16", "CIELAB", "OKLAB", "HSL"] →
      get_srgb1 constConv [[1]] 1 "Foo" = .error .unsupportedColorSpace)) :=
  ⟨by norm_num, selector_case_insensitive constConv [[1]] 1 "Foo" (by norm_num)⟩

lemma hslSextant_bounds (h c x : ℝ) (hx0 : 0 ≤ x) (hxc : x ≤ c) :
    (0 ≤ (hslSextant h c x).1 ∧ (hslSextant h c x).1 ≤ c) ∧
    (0 ≤ (hslSextant h c x).2.1 ∧ (hslSextant h c x).2.1 ≤ c) ∧
    (0 ≤ (hslSextant h c x).2.2 ∧ (hslSextant h c x).2.2 ≤ c) := by
  have hc0 : 0 ≤ c := le_trans hx0 hxc
  unfold hslSextant
  split_ifs
  · exact ⟨⟨hc0, le_refl c⟩, ⟨hx0, hxc⟩, ⟨le_refl 0, hc0⟩⟩
  · exact ⟨⟨hx0, hxc⟩, ⟨hc0, le_refl c⟩, ⟨le_refl 0, hc0⟩⟩
  · exact ⟨⟨le_refl 0, hc0⟩, ⟨hc0, le_refl c⟩, ⟨hx0, hxc⟩⟩
  · exact ⟨⟨le_refl 0, hc0⟩, ⟨hx0, hxc⟩, ⟨hc0, le_refl c⟩⟩
  · exact ⟨⟨hx0, hxc⟩, ⟨le_refl 0, hc0⟩, ⟨hc0, le_refl c⟩⟩
  · exact ⟨⟨hc0, le_refl c⟩, ⟨le_refl 0, hc0⟩, ⟨hx0, hxc⟩⟩

lemma hslToRgb1_mem (h s l : ℝ) (hs0 : 0 ≤ s) (hs1 : s ≤ 1)
    (hl0 : 0 ≤ l) (hl1 : l ≤ 1) :
    (0 ≤ (hslToRgb1 (h, s, l)).1 ∧ (hslToRgb1 (h, s, l)).1 ≤ 1) ∧
    (0 ≤ (hslToRgb1 (h, s, l)).2.1 ∧ (hslToRgb1 (h, s, l)).2.1 ≤ 1) ∧
    (0 ≤ (hslToRgb1 (h, s, l)).2.2 ∧ (hslToRgb1 (h, s, l)).2.2 ≤ 1) := by
  have habs : |2 * l - 1| ≤ 1 := abs_le.mpr ⟨by linarith, by linarith⟩
  have hc0 : 0 ≤ hslChroma s l := mul_nonneg (by linarith) hs0
  have hcl : hslChroma s l ≤ 1 - |2 * l - 1| := by
    have h1 := mul_le_of_le_one_right (show (0 : ℝ) ≤ 1 - |2 * l - 1| by linarith) hs1
    simpa [hslChroma] using h1
  have h2l : 1 - |2 * l - 1| ≤ 2 * l := by
    have h1 := neg_abs_le (2 * l - 1)
    linarith
  have h2l' : 1 - |2 * l - 1| ≤ 2 - 2 * l := by
    have h1 := le_abs_self (2 * l - 1)
    linarith
  have hm0 : 0 ≤ hslM s l := by
    unfold hslM
    linarith
  have hmc : hslM s l + hslChroma s l ≤ 1 := by
    unfold hslM
    linarith
  have hmod0 : 0 ≤ realMod (realMod h 360 / 60) 2 := realMod_nonneg _ (by norm_num)
  have hmod2 : realMod (realMod h 360 / 60) 2 < 2 := realMod_lt _ (by norm_num)
  have hfac : |realMod (realMod h 360 / 60) 2 - 1| ≤ 1 :=
    abs_le.mpr ⟨by linarith, by linarith⟩
  have hfac0 : 0 ≤ 1 - |realMod (realMod h 360 / 60) 2 - 1| := by linarith
  have hfac1 : 1 - |realMod (realMod h 360 / 60) 2 - 1| ≤ 1 := by
    have h1 := abs_nonneg (realMod (realMod h 360 / 60) 2 - 1)
    linarith
  have hx0 : 0 ≤ hslX (realMod h 360) s l := mul_nonneg hc0 hfac0
  have hxc : hslX (realMod h 360) s l ≤ hslChroma s l :=
    mul_le_of_le_one_right hc0 (by linarith)
  obtain ⟨hA, hB, hC⟩ :=
    hslSextant_bounds (realMod h 360) (hslChroma s l) (hslX (realMod h 360) s l) hx0 hxc
  simp only [hslToRgb1]
  refine ⟨⟨?_, ?_⟩, ⟨?_, ?_⟩, ?_, ?_⟩
  · have := hA.1
    linarith
  · have := hA.2
    linarith
  · have := hB.1
    linarith
  · have := hB.2
    linarith
  · have := hC.1
    linarith
  · have := hC.2
    linarith

lemma srgbPixel_mem (C : Conversions) (b : Branch) (alpha : ℝ) (z : ℂ) :
    (0 ≤ (srgbPixel C b alpha z).1 ∧ (srgbPixel C b alpha z).1 ≤ 1) ∧
    (0 ≤ (srgbPixel C b alpha z).2.1 ∧ (srgbPixel C b alpha z).2.1 ≤ 1) ∧
    (0 ≤ (srgbPixel C b alpha z).2.2 ∧ (srgbPixel C b alpha z).2.2 ≤ 1) := by
  cases b
  case cam16 => exact ⟨clip_mem _, clip_mem _, clip_mem _⟩
  case lab => exact ⟨clip_mem _, clip_mem _, clip_mem _⟩
  case oklab => exact ⟨clip_mem _, clip_mem _, clip_mem _⟩
  case hsl =>
    obtain ⟨hs0, hs1⟩ := abs_scaling_mem alpha (Complex.abs z) (Complex.abs.nonneg z)
    obtain ⟨hA, hB, hC⟩ :=
      hslToRgb1_mem (realMod (Complex.arg z / (2 * π) * 360 + 120) 360) 1
        (abs_scaling alpha (Complex.abs z)) (by norm_num) (by norm_num) hs0 hs1
    exact ⟨clipNeg_mem _ hA.2, clipNeg_mem _ hB.2, clipNeg_mem _ hC.2⟩

/-- Claim C2: for every input array and recognized colorspace selector
(and admissible alpha, without which the parameter check rejects the
call), get_srgb1 returns an array of the input's shape whose elements
are 3-channel triples, every channel lying in [0, 1]. -/
theorem get_srgb1_shape_and_range (C : Conversions) (z : List (List ℂ))
    (alpha : ℝ) (cs : String) (ha : 0 ≤ alpha)
    (hcs : strUpper cs ∈ ["CAM16", "CIELAB", "OKLAB", "HSL"]) :
    ∃ out, get_srgb1 C z alpha cs = .ok out ∧
      out.map List.length = z.map List.length ∧
      ∀ row ∈ out, ∀ px ∈ row,
        (0 ≤ px.1 ∧ px.1 ≤ 1) ∧ (0 ≤ px.2.1 ∧ px.2.1 ≤ 1) ∧
        (0 ≤ px.2.2 ∧ px.2.2 ≤ 1) := by
  rw [← branchOf_isSome_iff] at hcs
  obtain ⟨b, hb⟩ := Option.isSome_iff_exists.mp hcs
  refine ⟨z.map fun row => row.map (srgbPixel C b alpha), ?_, ?_, ?_⟩
  · unfold get_srgb1
    rw [if_neg (not_lt.mpr ha), hb]
  · simp [List.map_map, Function.comp]
  · intro row hrow px hpx
    simp only [List.mem_map] at hrow
    obtain ⟨row0, _, rfl⟩ := hrow
    simp only [List.mem_map] at hpx
    obtain ⟨w, _, rfl⟩ := hpx
    exact srgbPixel_mem C b alpha w

/-- Witness for C2 on the single-sample array [[1]] with the HSL
selector and alpha = 1. -/
theorem get_srgb1_shape_and_range_witness :
    (0 : ℝ) ≤ 1 ∧ strUpper "HSL" ∈ ["CAM16", "CIELAB", "OKLAB", "HSL"] ∧
    ∃ out, get_srgb1 constConv [[1]] 1 "HSL" = .ok out ∧
      out.map List.length = ([[1]] : List (List ℂ)).map List.length ∧
      ∀ row ∈ out, ∀ px ∈ row,
        (0 ≤ px.1 ∧ px.1 ≤ 1) ∧ (0 ≤ px.2.1 ∧ px.2.1 ≤ 1) ∧
        (0 ≤ px.2.2 ∧ px.2.2 ≤ 1) :=
  ⟨by norm_num, by decide,
    get_srgb1_shape_and_range constConv [[1]] 1 "HSL" (by norm_num) (by decide)⟩

end Cplot

end
